import Mathlib

/-!
Shallow embedding of `zoom_mute_monitor.py` (ZoomMuteMonitor): the settings
store (`Config.load` / `Config.save`), the status prober (`checkMuteStatus`
together with the generated AppleScript it executes), the timer replacement
logic (`setCheckInterval_`) and the keyword editors (`setMutedKeyword_`,
`setUnmutedKeyword_`).  Python strings are embedded as `String` (sequences
of code points); the Python operations `s[n:]`, `s.startswith(p)` and
`s.split('|')` are embedded as `pyDrop`, `pyStartsWith` and `pySplit`.
-/

/-- JSON values as stored in the settings file.  The source stores the window
origin coordinates (Cocoa doubles) and integer sizes/intervals; coordinates
are modelled with exact integer values, since their serialisation is performed
by the external `json` library at the process boundary. -/
inductive JValue where
  | null : JValue
  | int : Int → JValue
  | str : String → JValue
  deriving DecidableEq

/-- The `Config` class: the fields assigned in `Config.__init__`. -/
structure Config where
  window_x : Option Int
  window_y : Option Int
  icon_size : Int
  muted_keyword : String
  unmuted_keyword : String
  check_interval : Int
  deriving DecidableEq

/-- The field defaults from `Config.__init__` (icon size 100, check interval
200 ms, the locale-specific keyword phrases, no saved window position). -/
def defaultConfig : Config :=
  { window_x := none, window_y := none, icon_size := 100,
    muted_keyword := "オーディオのミュート解除",
    unmuted_keyword := "オーディオのミュート",
    check_interval := 200 }

/-- Embedding of `data.get(k)` on the parsed JSON object. -/
def jsonGet (data : List (String × JValue)) (k : String) : Option JValue :=
  (data.find? (fun kv => kv.1 == k)).map (fun kv => kv.2)

/-- What `Config.load` finds at the settings path: no file, an unreadable or
unparsable file (`json.load` raising, caught by the handler, leaving every
field at its `__init__` value), or a parsed JSON object. -/
inductive LoadInput where
  | noFile : LoadInput
  | corrupt : LoadInput
  | parsed : List (String × JValue) → LoadInput

/-- Reading `data.get('window_x')`: an integer if stored, else `None`. -/
def loadOptInt : Option JValue → Option Int
  | some (.int n) => some n
  | _ => none

/-- Reading `data.get(k, d)` for an integer field.  (Python, dynamically
typed, would store a present value of another JSON type unchanged; that
case, outside every claim, is mapped to the default here.) -/
def loadIntD : Option JValue → Int → Int
  | some (.int n), _ => n
  | _, d => d

/-- Reading `data.get(k, d)` for a string field (same convention as
`loadIntD` for non-string stored values). -/
def loadStrD : Option JValue → String → String
  | some (.str s), _ => s
  | _, d => d

/-- The `Config.load` method: on a missing or corrupt file every field keeps
its `__init__` default; on a parsed object each field is read with
`data.get` and its default. -/
def Config.load : LoadInput → Config
  | .noFile => defaultConfig
  | .corrupt => defaultConfig
  | .parsed data =>
    { window_x := loadOptInt (jsonGet data "window_x"),
      window_y := loadOptInt (jsonGet data "window_y"),
      icon_size := loadIntD (jsonGet data "icon_size") 100,
      muted_keyword := loadStrD (jsonGet data "muted_keyword") "オーディオのミュート解除",
      unmuted_keyword := loadStrD (jsonGet data "unmuted_keyword") "オーディオのミュート",
      check_interval := loadIntD (jsonGet data "check_interval") 200 }

/-- Python `None` serialises to JSON `null`. -/
def optIntJ : Option Int → JValue
  | none => .null
  | some n => .int n

/-- The `Config.save` method: the JSON object passed to `json.dump`. -/
def Config.save (c : Config) : List (String × JValue) :=
  [("window_x", optIntJ c.window_x),
   ("window_y", optIntJ c.window_y),
   ("icon_size", .int c.icon_size),
   ("muted_keyword", .str c.muted_keyword),
   ("unmuted_keyword", .str c.unmuted_keyword),
   ("check_interval", .int c.check_interval)]

/-- The accessibility state inspected by the generated AppleScript of
`checkMuteStatus`: whether a process named `zoom.us` exists, whether one
named `Zoom` exists, and what reading the item names of the first submenu
of the ミーティング menu bar item yields — the ordered name list on success,
or the AppleScript error message `errMsg` caught by the script's `try`
block on failure. -/
structure ZoomEnv where
  zoomUsRunning : Bool
  zoomAltRunning : Bool
  menuRead : Except String (List String)

/-- The `itemList` accumulation in the generated AppleScript: every retrieved
menu-item name followed by a `|` separator. -/
def scriptItemList (items : List String) : String :=
  items.foldl (fun acc it => acc ++ it ++ "|") ""

/-- The generated AppleScript of `checkMuteStatus` as a function of the
current keywords and the accessibility state: `not_running` when neither
process name exists; otherwise scan the menu items first for the muted
keyword, then for the unmuted keyword (string equality, first match
returns); an `unknown:`-prefixed pipe-joined item dump when neither occurs;
an `error:`-prefixed message when the menu read raises.  (The script's
trailing `return "unknown"` is unreachable: every branch above returns.) -/
def runAppleScript (cfg : Config) (env : ZoomEnv) : String :=
  if !(env.zoomUsRunning || env.zoomAltRunning) then "not_running"
  else
    match env.menuRead with
    | .error errMsg => "error:" ++ errMsg
    | .ok items =>
      if items.any (fun it => it == cfg.muted_keyword) then "muted"
      else if items.any (fun it => it == cfg.unmuted_keyword) then "unmuted"
      else "unknown:" ++ scriptItemList items

/-- Embedding of Python `s.startswith(p)` over code points. -/
def strLeads : List Char → List Char → Bool
  | [], _ => true
  | _ :: _, [] => false
  | a :: as, b :: bs => a == b && strLeads as bs

/-- Python `s.startswith(p)`. -/
def pyStartsWith (s p : String) : Bool :=
  strLeads p.data s.data

/-- Embedding of the Python slice `s[n:]` over code points. -/
def pyDrop (s : String) (n : Nat) : String :=
  ⟨s.data.drop n⟩

/-- Embedding of Python `s.split('|')` over code points: split at every
separator, keeping empty fragments. -/
def pySplitPipe : List Char → List (List Char)
  | [] => [[]]
  | c :: cs =>
    if c == '|' then [] :: pySplitPipe cs
    else
      match pySplitPipe cs with
      | [] => [[c]]
      | f :: r => (c :: f) :: r

/-- Python `s.split('|')`. -/
def pySplit (s : String) : List String :=
  (pySplitPipe s.data).map (fun l => ⟨l⟩)

/-- The `last_error` text of the `if error:` branch and of the `error:`
status branch of `checkMuteStatus`. -/
def appleScriptErrorText (m : String) : String :=
  "AppleScriptエラー:\n" ++ m ++ "\n\nアクセシビリティ権限を確認してください"

/-- The keyword-mismatch explanation shared by the `unknown` and `unknown:`
status branches of `checkMuteStatus`. -/
def keywordNotFoundHeader (cfg : Config) : String :=
  "キーワードが見つかりません\n\nミュートキーワード: " ++ cfg.muted_keyword ++
    "\nミュート解除キーワード: " ++ cfg.unmuted_keyword ++
    "\n\n画面上部ステータスバーのZoomアイコンを押した時に表示される項目を確認してください"

/-- The `unknown:` branch of `checkMuteStatus`: the header plus one
`- item` line per non-empty fragment of the pipe-separated dump. -/
def unknownDetails (cfg : Config) (menu_items : String) : String :=
  (pySplit menu_items).foldl
    (fun acc item => if item == "" then acc else acc ++ ("- " ++ item ++ "\n"))
    (keywordNotFoundHeader cfg ++ "\n\n【実際のメニュー項目】\n")

/-- The observable outcome of `executeAndReturnError_` inside
`checkMuteStatus`: an error object with its extracted message, a normal
return whose `stringValue` is the given string (`none` for a nil result,
which the source maps to status `unknown`), or a Python exception escaping
the call, with its type name and message. -/
inductive ExecOutcome where
  | ranWithError : String → ExecOutcome
  | ranOk : Option String → ExecOutcome
  | raised : String → String → ExecOutcome

/-- The classification performed by `checkMuteStatus` on an execution
outcome, returning the pair (result value, recorded `last_error`). -/
def checkMuteStatus (cfg : Config) (o : ExecOutcome) : Option Bool × Option String :=
  match o with
  | .ranWithError error_msg => (none, some (appleScriptErrorText error_msg))
  | .raised tyName msg =>
      (none, some ("予期しないエラー:\n" ++ tyName ++ ": " ++ msg))
  | .ranOk res =>
    let status := res.getD "unknown"
    if status == "muted" then (some true, none)
    else if status == "unmuted" then (some false, none)
    else if status == "not_running" then (none, some "Zoomが起動していません")
    else if pyStartsWith status "unknown:" then
      (none, some (unknownDetails cfg (pyDrop status 8)))
    else if pyStartsWith status "error:" then
      (none, some (appleScriptErrorText (pyDrop status 6)))
    else if status == "unknown" then (none, some (keywordNotFoundHeader cfg))
    else (none, some ("不明なステータス: " ++ status))

/-- One poll in which the AppleScript executes normally: run the generated
script in the given environment and classify its result string. -/
def check (cfg : Config) (env : ZoomEnv) : Option Bool × Option String :=
  checkMuteStatus cfg (.ranOk (some (runAppleScript cfg env)))

/-- The strings of `L` occur inside `s`, verbatim, in order and without
overlap (stated over code-point lists). -/
def inOrderSubL : List Char → List (List Char) → Prop
  | _, [] => True
  | s, x :: xs => ∃ pre rest, s = pre ++ x ++ rest ∧ inOrderSubL rest xs

/-- The strings of `L` occur inside `s`, verbatim, in order. -/
def containsInOrder (s : String) (L : List String) : Prop :=
  inOrderSubL s.data (L.map String.data)

/-- The live `NSTimer`s of the process: `live` holds (identity, period in
milliseconds) for every timer that has been scheduled and not invalidated;
`slot` is the identity held by `self.timer`.  (The source hands the period
to `NSTimer` as `interval / 1000.0` seconds; periods are kept in
milliseconds here.) -/
structure TimerWorld where
  live : List (Nat × Int)
  slot : Option Nat

/-- `NSTimer.invalidate`: the timer is removed and never fires again. -/
def invalidateTimer (w : TimerWorld) (id : Nat) : TimerWorld :=
  { w with live := w.live.filter (fun t => t.1 != id) }

/-- A timer identity unused by any live timer. -/
def freshTimerId (w : TimerWorld) : Nat :=
  (w.live.map (fun t => t.1)).foldr max 0 + 1

/-- `scheduledTimerWithTimeInterval_…`: a new repeating timer of the given
period becomes live. -/
def scheduleTimer (w : TimerWorld) (id : Nat) (period : Int) : TimerWorld :=
  { w with live := w.live ++ [(id, period)] }

/-- The `setCheckInterval_` action: store and save the new interval, then —
if `self.timer` holds a timer — invalidate it, and only then schedule a
fresh repeating timer at the new interval, storing it in `self.timer`.
(`self.config.save()` persists the updated configuration; the file contents
are `Config.save` of the first component.) -/
def setCheckInterval_ (cfg : Config) (w : TimerWorld) (interval : Int) :
    Config × TimerWorld :=
  let cfg2 := { cfg with check_interval := interval }
  let w1 := match w.slot with
    | some id => invalidateTimer w id
    | none => w
  let fresh := freshTimerId w1
  let w2 := scheduleTimer w1 fresh interval
  (cfg2, { w2 with slot := some fresh })

/-- A timer tick at period `p` is possible exactly when a live timer with
that period exists. -/
def canTick (w : TimerWorld) (p : Int) : Prop :=
  ∃ t ∈ w.live, t.2 = p

/-- The AppKit constant for the dialog's first (`OK`) button. -/
def NSAlertFirstButtonReturn : Int := 1000

/-- The monitor's configuration paired with the settings-file contents
(`none` when nothing was ever written). -/
structure EditState where
  config : Config
  file : Option (List (String × JValue))

/-- The `setMutedKeyword_` action, as a function of the dialog response and
the final text-field contents: when the dialog is confirmed with the first
button and the input is non-empty (Python truthiness of `new_keyword`),
store the input as the muted keyword and save; otherwise do nothing. -/
def setMutedKeyword_ (st : EditState) (response : Int) (input : String) : EditState :=
  if response == NSAlertFirstButtonReturn then
    if input == "" then st
    else
      let cfg2 := { st.config with muted_keyword := input }
      { config := cfg2, file := some (Config.save cfg2) }
  else st

/-- The `setUnmutedKeyword_` action, mirroring `setMutedKeyword_` for the
unmuted keyword. -/
def setUnmutedKeyword_ (st : EditState) (response : Int) (input : String) : EditState :=
  if response == NSAlertFirstButtonReturn then
    if input == "" then st
    else
      let cfg2 := { st.config with unmuted_keyword := input }
      { config := cfg2, file := some (Config.save cfg2) }
  else st

/-- The concrete keyword configuration used by the spec's test scenarios. -/
def cfgMU : Config :=
  { defaultConfig with muted_keyword := "MUTED", unmuted_keyword := "UNMUTED" }

/-- Appending strings concatenates their code-point lists. -/
theorem sdata_append (a b : String) : (a ++ b).data = a.data ++ b.data := rfl

/-- String append is associative. -/
theorem sappend_assoc (a b c : String) : (a ++ b) ++ c = a ++ (b ++ c) :=
  congrArg String.mk (List.append_assoc a.data b.data c.data)

/-- The empty string is a right identity for append. -/
theorem sappend_empty (s : String) : s ++ "" = s :=
  congrArg String.mk (List.append_nil s.data)

/-- A string with a non-empty code-point list is not the empty string. -/
theorem ne_empty_of_data {s : String} (h : s.data ≠ []) : s ≠ "" :=
  fun e => h (congrArg String.data e)

/-- Appending preserves non-emptiness of the code-point list. -/
theorem append_data_ne_nil {a : String} (h : a.data ≠ []) (b : String) :
    (a ++ b).data ≠ [] := by
  rw [sdata_append]
  intro e
  exact h (List.append_eq_nil.mp e).1

/-- A membership test by equality succeeds exactly on lists containing the
element. -/
theorem any_beq_of_mem {L : List String} {x : String} (h : x ∈ L) :
    L.any (fun it => it == x) = true :=
  List.any_eq_true.2 ⟨x, h, by simp⟩

/-- A membership test by equality fails on lists not containing the
element. -/
theorem any_beq_of_not_mem {L : List String} {x : String} (h : x ∉ L) :
    L.any (fun it => it == x) = false := by
  rw [List.any_eq_false]
  intro y hy
  simp only [beq_iff_eq]
  exact fun e => h (e ▸ hy)

/-- When at least one Zoom process name exists, the script does not take the
`not_running` branch. -/
theorem runAppleScript_of_running (cfg : Config) (env : ZoomEnv)
    (hrun : env.zoomUsRunning = true ∨ env.zoomAltRunning = true) :
    runAppleScript cfg env =
      match env.menuRead with
      | .error errMsg => "error:" ++ errMsg
      | .ok items =>
        if items.any (fun it => it == cfg.muted_keyword) then "muted"
        else if items.any (fun it => it == cfg.unmuted_keyword) then "unmuted"
        else "unknown:" ++ scriptItemList items := by
  have hproc : (!(env.zoomUsRunning || env.zoomAltRunning)) = false := by
    rcases hrun with h | h <;> simp [h]
  rw [runAppleScript, hproc]
  simp

/-- Classification of the literal `muted` status. -/
theorem checkMuteStatus_muted (cfg : Config) :
    checkMuteStatus cfg (.ranOk (some "muted")) = (some true, none) := rfl

/-- Classification of the literal `unmuted` status. -/
theorem checkMuteStatus_unmuted (cfg : Config) :
    checkMuteStatus cfg (.ranOk (some "unmuted")) = (some false, none) := rfl

/-- C1: for every configured keyword pair and every retrieved menu-item list
`L`, `check` yields Muted (`some true`, no error) whenever some item equals
the muted keyword — regardless of whether or where the unmuted keyword
occurs — and otherwise yields Unmuted (`some false`, no error) whenever some
item equals the unmuted keyword: the muted scan takes precedence. -/
theorem check_scan_precedence (cfg : Config) (env : ZoomEnv) (L : List String)
    (hrun : env.zoomUsRunning = true ∨ env.zoomAltRunning = true)
    (hmenu : env.menuRead = .ok L) :
    (cfg.muted_keyword ∈ L → check cfg env = (some true, none)) ∧
    (cfg.muted_keyword ∉ L → cfg.unmuted_keyword ∈ L →
      check cfg env = (some false, none)) := by
  have hbase := runAppleScript_of_running cfg env hrun
  rw [hmenu] at hbase
  constructor
  · intro hm
    have hs : runAppleScript cfg env = "muted" := by
      rw [hbase]
      simp [any_beq_of_mem hm]
    rw [check, hs]
    exact checkMuteStatus_muted cfg
  · intro hm hu
    have hs : runAppleScript cfg env = "unmuted" := by
      rw [hbase]
      simp [any_beq_of_not_mem hm, any_beq_of_mem hu]
    rw [check, hs]
    exact checkMuteStatus_unmuted cfg

/-- C1 witness: the spec scenario — keywords MUTED/UNMUTED and menu items
`["MUTED", "Record"]` — yields the Muted result. -/
theorem check_scan_precedence_witness :
    check cfgMU ⟨true, false, .ok ["MUTED", "Record"]⟩ = (some true, none) :=
  (check_scan_precedence cfgMU ⟨true, false, .ok ["MUTED", "Record"]⟩
    ["MUTED", "Record"] (Or.inl rfl) rfl).1 (by decide)

/-- C3: when neither Zoom process name exists, `check` yields Unknown with
the "Zoom is not running" detail, and its result does not depend on the
menu-read outcome at all — no menu read is consulted in that poll. -/
theorem check_not_running (cfg : Config) (env : ZoomEnv)
    (h1 : env.zoomUsRunning = false) (h2 : env.zoomAltRunning = false) :
    check cfg env = (none, some "Zoomが起動していません") ∧
    ∀ m, check cfg { env with menuRead := m } = check cfg env := by
  obtain ⟨zu, za, mr⟩ := env
  simp only at h1 h2
  subst h1
  subst h2
  exact ⟨rfl, fun m => rfl⟩

/-- C3 witness: a concrete poll with both process names absent. -/
theorem check_not_running_witness :
    check defaultConfig ⟨false, false, .ok ["MUTED"]⟩ =
      (none, some "Zoomが起動していません") :=
  (check_not_running defaultConfig ⟨false, false, .ok ["MUTED"]⟩ rfl rfl).1

/-- C6: saving any settings record and reloading the written JSON object
restores every field exactly — strings identically, numbers equal. -/
theorem config_save_load_roundtrip :
    ∀ c : Config, Config.load (.parsed (Config.save c)) = c := by
  intro c
  obtain ⟨wx, wy, isz, mk, uk, ci⟩ := c
  cases wx <;> cases wy <;> rfl

/-- The text appended by the dump loop of the `unknown:` branch, as a
function of the fragment list: one `- item` line per non-empty fragment. -/
def dumpLines : List String → String
  | [] => ""
  | item :: rest =>
    (if item == "" then "" else "- " ++ item ++ "\n") ++ dumpLines rest

/-- The dump loop is the initial accumulator followed by the lines. -/
theorem foldl_dump_eq (frags : List String) :
    ∀ init : String,
      frags.foldl
        (fun acc item => if item == "" then acc else acc ++ ("- " ++ item ++ "\n"))
        init = init ++ dumpLines frags := by
  induction frags with
  | nil => intro init; exact (sappend_empty init).symm
  | cons item rest ih =>
    intro init
    show List.foldl _ (if item == "" then init else init ++ ("- " ++ item ++ "\n")) rest = _
    rw [ih]
    by_cases h : item == ""
    · rw [if_pos h, dumpLines, if_pos h]
      rw [show ("" : String) ++ dumpLines rest = dumpLines rest from congrArg String.mk rfl]
    · rw [if_neg h, dumpLines, if_neg h, sappend_assoc]

/-- `unknownDetails` is the header block followed by the dump lines. -/
theorem unknownDetails_eq (cfg : Config) (m : String) :
    unknownDetails cfg m =
      (keywordNotFoundHeader cfg ++ "\n\n【実際のメニュー項目】\n") ++
        dumpLines (pySplit m) :=
  foldl_dump_eq (pySplit m) _

/-- The keyword-mismatch header starts with a fixed non-empty phrase. -/
theorem keywordNotFoundHeader_data_ne_nil (cfg : Config) :
    (keywordNotFoundHeader cfg).data ≠ [] := by
  rw [keywordNotFoundHeader]
  apply append_data_ne_nil
  apply append_data_ne_nil
  apply append_data_ne_nil
  apply append_data_ne_nil
  decide

/-- The keyword-mismatch header is never the empty string. -/
theorem keywordNotFoundHeader_ne_empty (cfg : Config) :
    keywordNotFoundHeader cfg ≠ "" :=
  ne_empty_of_data (keywordNotFoundHeader_data_ne_nil cfg)

/-- The scripting-error message is never the empty string. -/
theorem appleScriptErrorText_ne_empty (m : String) :
    appleScriptErrorText m ≠ "" := by
  apply ne_empty_of_data
  rw [appleScriptErrorText]
  apply append_data_ne_nil
  apply append_data_ne_nil
  decide

/-- The keyword-not-found dump message is never the empty string. -/
theorem unknownDetails_ne_empty (cfg : Config) (m : String) :
    unknownDetails cfg m ≠ "" := by
  rw [unknownDetails_eq]
  apply ne_empty_of_data
  apply append_data_ne_nil
  apply append_data_ne_nil
  exact keywordNotFoundHeader_data_ne_nil cfg

/-- The unexpected-exception message is never the empty string. -/
theorem unexpectedText_ne_empty (ty m : String) :
    ("予期しないエラー:\n" ++ ty ++ ": " ++ m) ≠ "" := by
  apply ne_empty_of_data
  apply append_data_ne_nil
  apply append_data_ne_nil
  apply append_data_ne_nil
  decide

/-- The unrecognized-status message is never the empty string. -/
theorem unknownStatusText_ne_empty (status : String) :
    ("不明なステータス: " ++ status) ≠ "" := by
  apply ne_empty_of_data
  apply append_data_ne_nil
  decide

/-- C4: every outcome of the scripting call — scripting error, any result
string whatsoever, or a Python exception — is classified by
`checkMuteStatus` without escaping: whenever the result is the Unknown
state, an error message is recorded, and an unexpected exception is
converted into the Unknown state with a message that contains the
exception's type name and message text verbatim. -/
theorem checkMuteStatus_contains_failures (cfg : Config) (o : ExecOutcome) :
    ((checkMuteStatus cfg o).1 = none →
      ∃ msg, (checkMuteStatus cfg o).2 = some msg) ∧
    (∀ ty m, checkMuteStatus cfg (.raised ty m) =
        (none, some ("予期しないエラー:\n" ++ ty ++ ": " ++ m)) ∧
      containsInOrder ("予期しないエラー:\n" ++ ty ++ ": " ++ m) [ty, m]) := by
  constructor
  · cases o with
    | ranWithError msg => exact fun _ => ⟨_, rfl⟩
    | raised ty m => exact fun _ => ⟨_, rfl⟩
    | ranOk res =>
      simp only [checkMuteStatus]
      split
      · simp
      · split
        · simp
        · split
          · simp
          · split
            · simp
            · split
              · simp
              · split <;> simp
  · intro ty m
    refine ⟨rfl, ?_⟩
    refine ⟨"予期しないエラー:\n".data, ": ".data ++ m.data, ?_, ?_⟩
    · simp [sdata_append, List.append_assoc]
    · exact ⟨": ".data, [], by simp, trivial⟩

/-- C4 witness: a concrete Python exception is converted, and its type name
and text appear in the recorded message. -/
theorem checkMuteStatus_contains_failures_witness :
    checkMuteStatus defaultConfig (.raised "RuntimeError" "boom") =
      (none, some "予期しないエラー:\nRuntimeError: boom") ∧
    containsInOrder "予期しないエラー:\nRuntimeError: boom" ["RuntimeError", "boom"] :=
  (checkMuteStatus_contains_failures defaultConfig
    (.raised "RuntimeError" "boom")).2 "RuntimeError" "boom"

/-- C5: on every classification path, a non-empty error detail is recorded
exactly when the returned state is Unknown (`none`); when the state is
Muted or Unmuted the error slot is cleared to `none`. -/
theorem check_error_slot_invariant (cfg : Config) (o : ExecOutcome) :
    ((checkMuteStatus cfg o).1 = none ↔
      ∃ m, (checkMuteStatus cfg o).2 = some m ∧ m ≠ "") ∧
    ((checkMuteStatus cfg o).1 ≠ none → (checkMuteStatus cfg o).2 = none) := by
  cases o with
  | ranWithError msg =>
    exact ⟨⟨fun _ => ⟨_, rfl, appleScriptErrorText_ne_empty msg⟩, fun _ => rfl⟩,
      fun h => absurd rfl h⟩
  | raised ty m =>
    exact ⟨⟨fun _ => ⟨_, rfl, unexpectedText_ne_empty ty m⟩, fun _ => rfl⟩,
      fun h => absurd rfl h⟩
  | ranOk res =>
    simp only [checkMuteStatus]
    split
    · exact ⟨by simp, by simp⟩
    · split
      · exact ⟨by simp, by simp⟩
      · split
        · exact ⟨by simp, by simp⟩
        · split
          · exact ⟨by simp [unknownDetails_ne_empty], by simp⟩
          · split
            · exact ⟨by simp [appleScriptErrorText_ne_empty], by simp⟩
            · split
              · exact ⟨by simp [keywordNotFoundHeader_ne_empty], by simp⟩
              · exact ⟨by simp [unknownStatusText_ne_empty], by simp⟩

/-- C5 witness: a Muted classification leaves the error slot cleared. -/
theorem check_error_slot_invariant_witness :
    (checkMuteStatus defaultConfig (.ranOk (some "muted"))).2 = none :=
  (check_error_slot_invariant defaultConfig (.ranOk (some "muted"))).2 (by decide)

/-- The settings-file keys that `Config.load` reads. -/
def knownConfigKeys : List String :=
  ["window_x", "window_y", "icon_size", "muted_keyword", "unmuted_keyword",
   "check_interval"]

/-- C7: `Config.load` is total and non-fatal — a missing or corrupt file
leaves every field at its default, loading depends only on the known keys
(unknown JSON fields are ignored), and each missing known field falls back
to its documented default: absent window position, icon size 100, the
locale-specific keywords, check interval 200. -/
theorem config_load_total_defaults :
    Config.load .noFile = defaultConfig ∧
    Config.load .corrupt = defaultConfig ∧
    (∀ da db : List (String × JValue),
      (∀ k, k ∈ knownConfigKeys → jsonGet da k = jsonGet db k) →
      Config.load (.parsed da) = Config.load (.parsed db)) ∧
    (∀ data, jsonGet data "window_x" = none →
      (Config.load (.parsed data)).window_x = none) ∧
    (∀ data, jsonGet data "window_y" = none →
      (Config.load (.parsed data)).window_y = none) ∧
    (∀ data, jsonGet data "icon_size" = none →
      (Config.load (.parsed data)).icon_size = 100) ∧
    (∀ data, jsonGet data "muted_keyword" = none →
      (Config.load (.parsed data)).muted_keyword = "オーディオのミュート解除") ∧
    (∀ data, jsonGet data "unmuted_keyword" = none →
      (Config.load (.parsed data)).unmuted_keyword = "オーディオのミュート") ∧
    (∀ data, jsonGet data "check_interval" = none →
      (Config.load (.parsed data)).check_interval = 200) := by
  refine ⟨rfl, rfl, ?_, ?_, ?_, ?_, ?_, ?_, ?_⟩
  · intro da db h
    simp only [Config.load]
    rw [h "window_x" (by decide), h "window_y" (by decide),
      h "icon_size" (by decide), h "muted_keyword" (by decide),
      h "unmuted_keyword" (by decide), h "check_interval" (by decide)]
  · intro data h; simp [Config.load, h, loadOptInt]
  · intro data h; simp [Config.load, h, loadOptInt]
  · intro data h; simp [Config.load, h, loadIntD]
  · intro data h; simp [Config.load, h, loadStrD]
  · intro data h; simp [Config.load, h, loadStrD]
  · intro data h; simp [Config.load, h, loadIntD]

/-- C7 witness: a file holding only an unknown field loads as the default
configuration. -/
theorem config_load_total_defaults_witness :
    Config.load (.parsed [("mystery", JValue.int 7)]) = defaultConfig := by
  have h := config_load_total_defaults.2.2.1 [("mystery", JValue.int 7)] []
    (by
      intro k hk
      simp only [knownConfigKeys, List.mem_cons, List.not_mem_nil, or_false] at hk
      rcases hk with rfl | rfl | rfl | rfl | rfl | rfl <;> rfl)
  rw [h]
  rfl

/-- C8: starting from the application invariant — `self.timer` holds the
single live timer, running at period X — changing the interval to Y leaves
exactly one live timer, the fresh one at period Y, referenced by
`self.timer`; the intermediate state between invalidation and scheduling
has no live timer at all (the old timer is fully stopped before the new one
exists, so two timers are never simultaneously active); afterwards a tick
is only possible at period Y (in particular never again at X when X ≠ Y);
and the stored interval is Y. -/
theorem setCheckInterval_single_timer (cfg : Config) (w : TimerWorld)
    (id : Nat) (X Y : Int)
    (hslot : w.slot = some id) (hlive : w.live = [(id, X)]) :
    ((setCheckInterval_ cfg w Y).2.live =
        [(freshTimerId (invalidateTimer w id), Y)] ∧
      (setCheckInterval_ cfg w Y).2.slot =
        some (freshTimerId (invalidateTimer w id))) ∧
    (invalidateTimer w id).live = [] ∧
    (∀ p, canTick (setCheckInterval_ cfg w Y).2 p → p = Y) ∧
    (setCheckInterval_ cfg w Y).1.check_interval = Y := by
  have hinv : (invalidateTimer w id).live = [] := by
    rw [invalidateTimer, hlive]
    simp
  refine ⟨⟨?_, ?_⟩, hinv, ?_, rfl⟩
  · rw [setCheckInterval_, hslot]
    simp only [scheduleTimer, hinv]
    rfl
  · rw [setCheckInterval_, hslot]
  · intro p hp
    rw [setCheckInterval_, hslot] at hp
    simp only [scheduleTimer, hinv, canTick] at hp
    obtain ⟨t, ht, he⟩ := hp
    simp only [List.nil_append, List.mem_singleton] at ht
    rw [ht] at he
    exact he.symm

/-- C8 witness: switching the single live 200 ms timer to 500 ms leaves one
live timer at 500 ms and makes a 200 ms tick impossible. -/
theorem setCheckInterval_single_timer_witness :
    (setCheckInterval_ defaultConfig ⟨[(1, 200)], some 1⟩ 500).2.live =
      [(1, 500)] ∧
    ¬ canTick (setCheckInterval_ defaultConfig ⟨[(1, 200)], some 1⟩ 500).2 200 := by
  have h := setCheckInterval_single_timer defaultConfig ⟨[(1, 200)], some 1⟩
    1 200 500 rfl rfl
  exact ⟨h.1.1, fun hc => absurd (h.2.2.1 200 hc) (by decide)⟩

/-- C9: a keyword-edit dialog that is cancelled, or confirmed with an empty
input, changes neither the configuration nor the settings file; a confirmed
non-empty input updates exactly the edited keyword and saves the updated
configuration; and neither edit can ever set its keyword to the empty
string. -/
theorem keyword_edit_frame (st : EditState) (response : Int) (input : String) :
    ((response ≠ NSAlertFirstButtonReturn ∨ input = "") →
      setMutedKeyword_ st response input = st ∧
      setUnmutedKeyword_ st response input = st) ∧
    (response = NSAlertFirstButtonReturn → input ≠ "" →
      (setMutedKeyword_ st response input).config =
        { st.config with muted_keyword := input } ∧
      (setMutedKeyword_ st response input).file =
        some (Config.save { st.config with muted_keyword := input }) ∧
      (setUnmutedKeyword_ st response input).config =
        { st.config with unmuted_keyword := input } ∧
      (setUnmutedKeyword_ st response input).file =
        some (Config.save { st.config with unmuted_keyword := input })) ∧
    ((setMutedKeyword_ st response input).config.muted_keyword = "" →
      st.config.muted_keyword = "") ∧
    ((setUnmutedKeyword_ st response input).config.unmuted_keyword = "" →
      st.config.unmuted_keyword = "") := by
  by_cases hr : response = NSAlertFirstButtonReturn
  · by_cases hi : input = ""
    · subst hi
      simp [setMutedKeyword_, setUnmutedKeyword_, hr]
    · constructor
      · rintro (h | h)
        · exact absurd hr h
        · exact absurd h hi
      · refine ⟨fun _ _ => ?_, ?_, ?_⟩
        · simp [setMutedKeyword_, setUnmutedKeyword_, hr, hi]
        · simp [setMutedKeyword_, hr, hi]
        · simp [setUnmutedKeyword_, hr, hi]
  · constructor
    · intro _
      simp [setMutedKeyword_, setUnmutedKeyword_, hr]
    · exact ⟨fun h => absurd h hr, by simp [setMutedKeyword_, hr],
        by simp [setUnmutedKeyword_, hr]⟩

/-- C9 witness: a cancelled dialog (second button, response 1001) leaves
the state untouched. -/
theorem keyword_edit_frame_witness :
    setMutedKeyword_ ⟨defaultConfig, none⟩ 1001 "anything" =
      ⟨defaultConfig, none⟩ ∧
    setUnmutedKeyword_ ⟨defaultConfig, none⟩ 1001 "anything" =
      ⟨defaultConfig, none⟩ :=
  (keyword_edit_frame ⟨defaultConfig, none⟩ 1001 "anything").1
    (Or.inl (by decide))

/-- C10: the result classification of `checkMuteStatus` is total — every
outcome yields exactly one of Muted, Unmuted or Unknown — and a result
string matching none of the recognized statuses falls through to Unknown
with a message recording the raw status text. -/
theorem check_status_fallthrough (cfg : Config) (status : String)
    (h1 : status ≠ "muted") (h2 : status ≠ "unmuted")
    (h3 : status ≠ "not_running")
    (h4 : pyStartsWith status "unknown:" = false)
    (h5 : pyStartsWith status "error:" = false)
    (h6 : status ≠ "unknown") :
    checkMuteStatus cfg (.ranOk (some status)) =
      (none, some ("不明なステータス: " ++ status)) ∧
    (∀ o, (checkMuteStatus cfg o).1 = none ∨
      (checkMuteStatus cfg o).1 = some true ∨
      (checkMuteStatus cfg o).1 = some false) := by
  constructor
  · have g1 : (status == "muted") = false := beq_eq_false_iff_ne.mpr h1
    have g2 : (status == "unmuted") = false := beq_eq_false_iff_ne.mpr h2
    have g3 : (status == "not_running") = false := beq_eq_false_iff_ne.mpr h3
    have g6 : (status == "unknown") = false := beq_eq_false_iff_ne.mpr h6
    simp [checkMuteStatus, g1, g2, g3, g6, h4, h5]
  · intro o
    cases e : (checkMuteStatus cfg o).1 with
    | none => exact Or.inl rfl
    | some b =>
      cases b with
      | true => exact Or.inr (Or.inl rfl)
      | false => exact Or.inr (Or.inr rfl)

/-- C10 witness: an unrecognized status string is classified as Unknown and
echoed in the recorded message. -/
theorem check_status_fallthrough_witness :
    checkMuteStatus defaultConfig (.ranOk (some "mystery")) =
      (none, some "不明なステータス: mystery") :=
  (check_status_fallthrough defaultConfig "mystery" (by decide) (by decide)
    (by decide) rfl rfl (by decide)).1

/-- The AppleScript `itemList`, in right-recursive form. -/
def itemsJoined : List String → String
  | [] => ""
  | it :: rest => it ++ "|" ++ itemsJoined rest

/-- The folded `itemList` accumulation equals its right-recursive form. -/
theorem scriptItemList_eq (L : List String) : scriptItemList L = itemsJoined L := by
  suffices h : ∀ acc : String,
      L.foldl (fun acc it => acc ++ it ++ "|") acc = acc ++ itemsJoined L by
    exact (h "").trans rfl
  induction L with
  | nil => intro acc; exact (sappend_empty acc).symm
  | cons it rest ih =>
    intro acc
    show List.foldl _ (acc ++ it ++ "|") rest = _
    rw [ih, itemsJoined]
    simp [sappend_assoc]

/-- `split('|')` never returns an empty fragment list. -/
theorem pySplitPipe_ne_nil (l : List Char) : pySplitPipe l ≠ [] := by
  cases l with
  | nil => simp [pySplitPipe]
  | cons c cs =>
    rw [pySplitPipe]
    by_cases hc : (c == '|') = true
    · rw [if_pos hc]; simp
    · rw [if_neg hc]
      cases pySplitPipe cs <;> simp

/-- Splitting at a separator concatenates the splits of the two halves. -/
theorem pySplitPipe_append_pipe (a b : List Char) :
    pySplitPipe (a ++ '|' :: b) = pySplitPipe a ++ pySplitPipe b := by
  induction a with
  | nil => simp [pySplitPipe]
  | cons c cs ih =>
    cases hc : (c == '|') with
    | true =>
      have he : c = '|' := by simpa using hc
      subst he
      simp [pySplitPipe, ih]
    | false =>
      simp only [List.cons_append, pySplitPipe, hc, Bool.false_eq_true, if_false,
        List.append_eq]
      rw [ih]
      cases h : pySplitPipe cs with
      | nil => exact absurd h (pySplitPipe_ne_nil cs)
      | cons f r => simp

/-- A separator-free string splits into itself alone. -/
theorem pySplitPipe_no_pipe (l : List Char) (h : '|' ∉ l) : pySplitPipe l = [l] := by
  induction l with
  | nil => rfl
  | cons c cs ih =>
    have hc : (c == '|') = false := by
      simp only [beq_eq_false_iff_ne]
      intro e
      exact h (List.mem_cons.mpr (Or.inl e.symm))
    rw [pySplitPipe, hc]
    simp only [Bool.false_eq_true, if_false]
    rw [ih (fun m => h (List.mem_cons_of_mem c m))]

/-- Splitting the pipe-joined item list yields the per-item fragments in
order, closed by the empty fragment after the final separator. -/
theorem pySplitPipe_itemsJoined (L : List String) :
    pySplitPipe (itemsJoined L).data =
      (L.map (fun it => pySplitPipe it.data)).flatten ++ [[]] := by
  induction L with
  | nil => rfl
  | cons it rest ih =>
    have hpd : ("|" : String).data = ['|'] := rfl
    have hdata : (itemsJoined (it :: rest)).data =
        it.data ++ '|' :: (itemsJoined rest).data := by
      show ((it ++ "|") ++ itemsJoined rest).data = _
      rw [sdata_append, sdata_append, hpd]
      simp
    rw [hdata, pySplitPipe_append_pipe, ih]
    simp [List.append_assoc]

/-- Fragment strings re-wrapped as `String`s carry the same code points. -/
theorem map_mk_data (l : List (List Char)) :
    (l.map (fun x => (⟨x⟩ : String))).map String.data = l := by
  induction l with
  | nil => rfl
  | cons x xs ih => simp [ih]

/-- The code points of the Python split of `m` are the raw split of `m`'s
code points. -/
theorem pySplit_map_data (m : String) :
    (pySplit m).map String.data = pySplitPipe m.data := by
  rw [pySplit]
  exact map_mk_data _

/-- In-order containment is stable under prepending text. -/
theorem inOrderSubL_append_left (a : List Char) {s : List Char}
    {K : List (List Char)} (h : inOrderSubL s K) : inOrderSubL (a ++ s) K := by
  cases K with
  | nil => exact trivial
  | cons x xs =>
    obtain ⟨pre, rest, he, ht⟩ := h
    exact ⟨a ++ pre, rest, by rw [he]; simp [List.append_assoc], ht⟩

/-- In-order containment of a pattern list also covers every sublist of the
pattern list. -/
theorem inOrderSubL_mono {K1 K2 : List (List Char)} (hsub : List.Sublist K1 K2) :
    ∀ s, inOrderSubL s K2 → inOrderSubL s K1 := by
  induction hsub with
  | slnil => intro s _; exact trivial
  | cons a hk ih =>
    intro s h
    obtain ⟨pre, rest, he, ht⟩ := h
    rw [he]
    exact inOrderSubL_append_left (pre ++ a) (ih rest ht)
  | cons₂ a hk ih =>
    intro s h
    obtain ⟨pre, rest, he, ht⟩ := h
    exact ⟨pre, rest, he, ih rest ht⟩

/-- Every fragment appears verbatim and in order in the dump lines. -/
theorem dumpLines_contains (F : List String) :
    inOrderSubL (dumpLines F).data (F.map String.data) := by
  induction F with
  | nil => exact trivial
  | cons item rest ih =>
    by_cases h : (item == "") = true
    · have hi : item = "" := by simpa using h
      rw [List.map_cons, dumpLines, if_pos h]
      exact ⟨[], (dumpLines rest).data, by simp [hi], ih⟩
    · rw [List.map_cons, dumpLines, if_neg h]
      refine ⟨"- ".data, "\n".data ++ (dumpLines rest).data, ?_, ?_⟩
      · simp [sdata_append, List.append_assoc]
      · exact inOrderSubL_append_left "\n".data ih

/-- The pipe-free items of `L` form a sublist of the fragments of the
pipe-joined dump of `L`, in order. -/
theorem filter_sublist_fragments (L : List String) :
    List.Sublist ((L.filter (fun it => !it.data.contains '|')).map String.data)
      ((L.map (fun it => pySplitPipe it.data)).flatten) := by
  induction L with
  | nil => simp
  | cons it rest ih =>
    cases h : it.data.contains '|' with
    | true =>
      simp only [List.filter_cons, h, Bool.not_true, Bool.false_eq_true,
        if_false, List.map_cons, List.flatten_cons]
      exact ih.trans (List.sublist_append_right _ _)
    | false =>
      have hnot : '|' ∉ it.data := by
        intro hm
        have h2 : it.data.elem '|' = true := List.elem_iff.mpr hm
        rw [show it.data.contains '|' = it.data.elem '|' from rfl, h2] at h
        cases h
      simp only [List.filter_cons, h, Bool.not_false, if_true, List.map_cons,
        List.flatten_cons]
      rw [pySplitPipe_no_pipe it.data hnot]
      exact List.Sublist.cons₂ it.data ih

/-- An `unknown:`-prefixed status differs from the fixed statuses checked
before the `unknown:` branch. -/
theorem unknownStatus_ne (m : String) :
    ("unknown:" ++ m) ≠ "muted" ∧ ("unknown:" ++ m) ≠ "unmuted" ∧
      ("unknown:" ++ m) ≠ "not_running" := by
  refine ⟨fun h => ?_, fun h => ?_, fun h => ?_⟩
  · have hd : 'u' :: 'n' :: 'k' :: 'n' :: 'o' :: 'w' :: 'n' :: ':' :: m.data =
        ['m', 'u', 't', 'e', 'd'] := congrArg String.data h
    injection hd with h1 _
    exact absurd h1 (by decide)
  · have hd : 'u' :: 'n' :: 'k' :: 'n' :: 'o' :: 'w' :: 'n' :: ':' :: m.data =
        ['u', 'n', 'm', 'u', 't', 'e', 'd'] := congrArg String.data h
    injection hd with _ hd2
    injection hd2 with _ hd3
    injection hd3 with h3 _
    exact absurd h3 (by decide)
  · have hd : 'u' :: 'n' :: 'k' :: 'n' :: 'o' :: 'w' :: 'n' :: ':' :: m.data =
        ['n', 'o', 't', '_', 'r', 'u', 'n', 'n', 'i', 'n', 'g'] :=
      congrArg String.data h
    injection hd with h1 _
    exact absurd h1 (by decide)

/-- An `unknown:`-prefixed status satisfies the prefix test. -/
theorem pyStartsWith_unknown (m : String) :
    pyStartsWith ("unknown:" ++ m) "unknown:" = true := rfl

/-- Stripping the 8-character `unknown:` marker recovers the dump. -/
theorem pyDrop_unknown (m : String) : pyDrop ("unknown:" ++ m) 8 = m := rfl

/-- Classification of an `unknown:`-prefixed status: Unknown with the
keyword-not-found dump details. -/
theorem checkMuteStatus_unknownPrefixed (cfg : Config) (m : String) :
    checkMuteStatus cfg (.ranOk (some ("unknown:" ++ m))) =
      (none, some (unknownDetails cfg m)) := by
  obtain ⟨n1, n2, n3⟩ := unknownStatus_ne m
  have g1 : (("unknown:" ++ m) == "muted") = false := beq_eq_false_iff_ne.mpr n1
  have g2 : (("unknown:" ++ m) == "unmuted") = false := beq_eq_false_iff_ne.mpr n2
  have g3 : (("unknown:" ++ m) == "not_running") = false :=
    beq_eq_false_iff_ne.mpr n3
  simp [checkMuteStatus, g1, g2, g3, pyStartsWith_unknown, pyDrop_unknown]

/-- C2 (amended): when the retrieved menu-item list contains neither
keyword, `check` yields Unknown and records the keyword-not-found detail,
which contains, verbatim and in original order, every item of the list that
is free of the pipe character used as the dump's join delimiter. -/
theorem check_keyword_not_found (cfg : Config) (env : ZoomEnv) (L : List String)
    (hrun : env.zoomUsRunning = true ∨ env.zoomAltRunning = true)
    (hmenu : env.menuRead = .ok L)
    (hmk : cfg.muted_keyword ∉ L) (huk : cfg.unmuted_keyword ∉ L) :
    check cfg env = (none, some (unknownDetails cfg (scriptItemList L))) ∧
    containsInOrder (unknownDetails cfg (scriptItemList L))
      (L.filter (fun it => !it.data.contains '|')) := by
  constructor
  · have hbase := runAppleScript_of_running cfg env hrun
    rw [hmenu] at hbase
    have hs : runAppleScript cfg env = "unknown:" ++ scriptItemList L := by
      rw [hbase]
      simp [any_beq_of_not_mem hmk, any_beq_of_not_mem huk]
    rw [check, hs]
    exact checkMuteStatus_unknownPrefixed cfg (scriptItemList L)
  · rw [containsInOrder, unknownDetails_eq, sdata_append]
    apply inOrderSubL_append_left
    have hsub : List.Sublist
        ((L.filter (fun it => !it.data.contains '|')).map String.data)
        ((pySplit (scriptItemList L)).map String.data) := by
      rw [pySplit_map_data, scriptItemList_eq, pySplitPipe_itemsJoined]
      exact (filter_sublist_fragments L).trans (List.sublist_append_left _ _)
    exact inOrderSubL_mono hsub _ (dumpLines_contains (pySplit (scriptItemList L)))

/-- C2 witness: the spec scenario — keywords MUTED/UNMUTED, menu items
`["Record", "Leave"]` — yields Unknown and both items appear verbatim and
in order in the recorded detail. -/
theorem check_keyword_not_found_witness :
    check cfgMU ⟨true, false, .ok ["Record", "Leave"]⟩ =
      (none, some (unknownDetails cfgMU (scriptItemList ["Record", "Leave"]))) ∧
    containsInOrder (unknownDetails cfgMU (scriptItemList ["Record", "Leave"]))
      ["Record", "Leave"] := by
  have h := check_keyword_not_found cfgMU ⟨true, false, .ok ["Record", "Leave"]⟩
    ["Record", "Leave"] (Or.inl rfl) rfl (by decide) (by decide)
  exact ⟨h.1, h.2⟩

/-- C2 counterexample: with keywords MUTED/UNMUTED and the single retrieved
item `x|y`, `check` yields Unknown but the recorded error detail does not
contain the item `x|y` verbatim — the dump splits it at the pipe — refuting
the claim that the detail contains every item of the list verbatim. -/
theorem check_keyword_dump_cex :
    (check cfgMU ⟨true, false, .ok ["x|y"]⟩).1 = none ∧
    ¬ containsInOrder ((check cfgMU ⟨true, false, .ok ["x|y"]⟩).2.getD "")
      ["x|y"] := by
  refine ⟨rfl, ?_⟩
  intro h
  simp only [containsInOrder, List.map, inOrderSubL] at h
  obtain ⟨pre, rest, he, -⟩ := h
  have hmem : '|' ∈ ((check cfgMU ⟨true, false, .ok ["x|y"]⟩).2.getD "").data := by
    rw [he]
    have hx : '|' ∈ ("x|y" : String).data := by decide
    simp [List.mem_append, hx]
  exact absurd hmem (by decide)
